import Mathlib

/-!
Shallow embedding of the shipbuilding risk-management core (Bayesian-network
probability propagation, Monte Carlo cost simulation, what-if scenario
control) and proofs of its specified properties.

Modelling conventions:
* Python `float` arithmetic is modelled by exact rationals `ℚ`.
* Python dictionaries are modelled by association lists (`alookup` /
  `dictInsert`), first-match lookup, insertion-order preserving update.
* `calculate_probability` is a recursive Python method; it is embedded as a
  fuel-indexed interpreter.  Exhausting the fuel models Python's
  `RecursionError` (the interpreter has a finite recursion limit); an
  unregistered factor id models Python's `KeyError` from
  `self.risk_structure[factor]`.  These are the only failure modes of the
  source method, collected in `RErr`.
* `np.random.random()` draws are modelled by an oracle `rng : Nat → ℚ`
  giving the successive values of the uniform stream.
-/

/-- Failure modes of the embedded Python code: a dictionary lookup failure
(`KeyError`) and exhaustion of the recursion limit (`RecursionError`). -/
inductive RErr where
  | keyError (key : String)
  | recursionError
deriving DecidableEq, Repr

/-- The `RiskFactor` dataclass: human label, base probability (roots only),
ordered parent ids. -/
structure RiskFactor where
  name : String
  probability : ℚ
  parents : List String
deriving DecidableEq, Repr

/-- The `CostImpact` dataclass: label, base cost, multiplier when triggered. -/
structure CostImpact where
  factor : String
  base_cost : ℚ
  multiplier_if_triggered : ℚ
deriving DecidableEq, Repr

/-- First-match association-list lookup, the model of Python `dict`
indexing / `in` tests. -/
def alookup {κ α : Type} [DecidableEq κ] : List (κ × α) → κ → Option α
  | [], _ => none
  | (k', v) :: t, k => if k' = k then some v else alookup t k

/-- Python `d[k] = v`: replace the value at an existing key in place
(keeping insertion order), or append a fresh key at the end. -/
def dictInsert {κ α : Type} [DecidableEq κ] : List (κ × α) → κ → α → List (κ × α)
  | [], k, v => [(k, v)]
  | (k', v') :: t, k, v => if k' = k then (k, v) :: t else (k', v') :: dictInsert t k v

/-- Left-to-right evaluation of a list comprehension whose body may raise:
the first raised exception propagates. -/
def mapExcept {ε α β : Type} (f : α → Except ε β) : List α → Except ε (List β)
  | [] => .ok []
  | a :: t =>
    match f a with
    | .error e => .error e
    | .ok b =>
      match mapExcept f t with
      | .error e => .error e
      | .ok bs => .ok (b :: bs)

/-- Left-to-right accumulating loop whose body may raise: the first raised
exception propagates. -/
def foldlExcept {ε σ α : Type} (f : σ → α → Except ε σ) : σ → List α → Except ε σ
  | s, [] => .ok s
  | s, a :: t =>
    match f s a with
    | .error e => .error e
    | .ok s' => foldlExcept f s' t

/-- Truth-state combination number `i` over `k` parents: parent `j` is
marked true iff bit `j` of `i` is set (`bool(i & (1 << j))`). -/
def parent_states_of (k i : Nat) : List Bool :=
  (List.range k).map (fun j => i.testBit j)

/-- State of `BayesianNetworkModel`: the risk graph taken from the ontology,
the conditional probability tables (keyed by the ordered tuple of parent
truth values), and the current evidence store. -/
structure BayesianNetworkModel where
  risk_structure : List (String × RiskFactor)
  cpt : List (String × List (List Bool × ℚ))
  evidence : List (String × Bool)
deriving DecidableEq, Repr

/-- Method `BayesianNetworkModel.set_evidence`: unconditionally record the boolean
for the given factor id.  No validation of the id is performed. -/
def BayesianNetworkModel.set_evidence (m : BayesianNetworkModel)
    (factor : String) (occurred : Bool) : BayesianNetworkModel :=
  { m with evidence := dictInsert m.evidence factor occurred }

/-- Body of the inner weight loop of `calculate_probability`: multiply the
running combination weight by the parent's probability if the combination
marks the parent true, else by one minus it.  The parent's probability is
obtained by a recursive call (`rec`), exactly as in the source. -/
def combStep (rec : String → Except RErr ℚ) (combination_prob : ℚ)
    (ps : String × Bool) : Except RErr ℚ :=
  match rec ps.1 with
  | .error e => .error e
  | .ok parent_prob =>
    .ok (combination_prob * (if ps.2 then parent_prob else 1 - parent_prob))

/-- Body of the combination loop of `calculate_probability`: for combination
number `i`, recompute each parent's probability (recursive call, as in the
source), multiply the per-parent weights together, and add the weight times
the CPT entry for this combination — nothing when the combination is
missing from the CPT. -/
def cptStep (rec : String → Except RErr ℚ) (parents : List String)
    (table : List (List Bool × ℚ)) (total_prob : ℚ) (i : Nat) : Except RErr ℚ :=
  match foldlExcept (combStep rec) 1 (parents.zip (parent_states_of parents.length i)) with
  | .error e => .error e
  | .ok combination_prob =>
    match alookup table (parent_states_of parents.length i) with
    | some conditional_prob => .ok (total_prob + combination_prob * conditional_prob)
    | none => .ok total_prob

/-- One unfolding step of `BayesianNetworkModel.calculate_probability`,
with `rec` standing for the recursive calls on parent factors.  This is a
transcription of the method body:
1. `self.risk_structure[factor]` (KeyError when absent);
2. root factors: evidence override, else base probability;
3. non-root factors: evidence override, else
4. `parent_probs` is computed for all parents (in order),
5. without a CPT: noisy-OR fallback `1 - prod (1 - p)`;
6. with a CPT: `total_prob` accumulates `cptStep` over all `2 ^ k`
   combination numbers. -/
def calcStep (m : BayesianNetworkModel) (rec : String → Except RErr ℚ)
    (factor : String) : Except RErr ℚ :=
  match alookup m.risk_structure factor with
  | none => .error (.keyError factor)
  | some risk =>
    if risk.parents.isEmpty then
      match alookup m.evidence factor with
      | some occurred => .ok (if occurred then 1 else 0)
      | none => .ok risk.probability
    else
      match alookup m.evidence factor with
      | some occurred => .ok (if occurred then 1 else 0)
      | none =>
        match mapExcept rec risk.parents with
        | .error e => .error e
        | .ok parent_probs =>
          match alookup m.cpt factor with
          | none => .ok (1 - (parent_probs.map (fun p => 1 - p)).prod)
          | some table =>
            foldlExcept (cptStep rec risk.parents table) 0
              (List.range (2 ^ risk.parents.length))

/-- Method `BayesianNetworkModel.calculate_probability`, indexed by the remaining
recursion budget.  Fuel `0` is the exhausted recursion limit
(`RecursionError`); at positive fuel one step of the method body runs, the
recursive calls on parents receiving one unit less fuel. -/
def BayesianNetworkModel.calculate_probability (m : BayesianNetworkModel) :
    Nat → String → Except RErr ℚ :=
  Nat.rec (fun _ => .error .recursionError)
    (fun _ ih factor => calcStep m ih factor)

/-- Method `BayesianNetworkModel.get_all_probabilities`: the marginal of every
registered factor, in registration order. -/
def BayesianNetworkModel.get_all_probabilities (m : BayesianNetworkModel)
    (fuel : Nat) : Except RErr (List (String × ℚ)) :=
  mapExcept (fun kv =>
    match m.calculate_probability fuel kv.1 with
    | .error e => .error e
    | .ok p => .ok (kv.1, p)) m.risk_structure

/-- One row of the simulation result: the sampled occurrence vector
(`iteration_state`) and the row's total cost.  The per-driver breakdown
columns are determined by these two and are not modelled. -/
structure SimulationSample where
  state : List (String × Bool)
  total : ℚ
deriving DecidableEq, Repr

/-- The `MonteCarloSimulator`: cost table from the ontology, the (shared)
Bayesian model, and the fixed baseline cost (`100.0` at construction). -/
structure MonteCarloSimulator where
  cost_impacts : List (String × CostImpact)
  bayesian_model : BayesianNetworkModel
  base_cost : ℚ
deriving Repr

/-- The cost loop of `run_simulation`: starting from the baseline, each
cost driver whose factor occurred in this iteration adds
`base_cost * multiplier_if_triggered`. -/
def total_cost_of (cost_impacts : List (String × CostImpact)) (base_cost : ℚ)
    (iteration_state : List (String × Bool)) : ℚ :=
  cost_impacts.foldl (fun total_cost kv =>
    if alookup iteration_state kv.1 = some true then
      total_cost + kv.2.base_cost * kv.2.multiplier_if_triggered
    else total_cost) base_cost

/-- Body of the sampling loop of one iteration of `run_simulation`: for the
registered factor `kv`, compute its marginal and draw a Bernoulli outcome
by comparing the next uniform value against it (`np.random.random() <
prob`).  The accumulator carries `iteration_state` and the position in the
random stream. -/
def sampleStep (bn : BayesianNetworkModel) (fuel : Nat) (rng : Nat → ℚ)
    (acc : List (String × Bool) × Nat) (kv : String × RiskFactor) :
    Except RErr (List (String × Bool) × Nat) :=
  match bn.calculate_probability fuel kv.1 with
  | .error e => .error e
  | .ok prob => .ok (dictInsert acc.1 kv.1 (decide (rng acc.2 < prob)), acc.2 + 1)

/-- One iteration of `run_simulation`: sample every registered factor, in
registration order, starting from an empty `iteration_state`. -/
def sampleIteration (bn : BayesianNetworkModel) (fuel : Nat) (rng : Nat → ℚ)
    (ctr : Nat) : Except RErr (List (String × Bool) × Nat) :=
  foldlExcept (sampleStep bn fuel rng) ([], ctr) bn.risk_structure

/-- Body of the iteration loop of `run_simulation`: sample one occurrence
vector and append the resulting row (vector plus its total cost). -/
def runStep (sim : MonteCarloSimulator) (fuel : Nat) (rng : Nat → ℚ)
    (acc : List SimulationSample × Nat) (_i : Nat) :
    Except RErr (List SimulationSample × Nat) :=
  match sampleIteration sim.bayesian_model fuel rng acc.2 with
  | .error e => .error e
  | .ok si =>
    .ok (acc.1 ++ [{ state := si.1,
                     total := total_cost_of sim.cost_impacts sim.base_cost si.1 }], si.2)

/-- Method `MonteCarloSimulator.run_simulation`: `n_iterations` is the Python
`int` argument; `range(n)` is empty for non-positive `n`.  Each iteration
samples an occurrence vector and records it with its total cost. -/
def MonteCarloSimulator.run_simulation (sim : MonteCarloSimulator) (fuel : Nat)
    (rng : Nat → ℚ) (n_iterations : Int) : Except RErr (List SimulationSample) :=
  match foldlExcept (runStep sim fuel rng)
      (([] : List SimulationSample), 0) (List.range n_iterations.toNat) with
  | .error e => .error e
  | .ok r => .ok r.1

/-- The two budget-exceedance statistics of
`MonteCarloSimulator.analyze_results`.  The remaining entries of the
returned dictionary (mean, median, std, percentiles) are summary statistics
of the same totals and are not modelled here. -/
structure AnalysisStats where
  prob_over_budget : ℚ
  prob_over_budget_20 : ℚ
deriving Repr

/-- Method `analyze_results`: a boolean pandas series' mean is the fraction of
true entries, here the fraction of rows whose total strictly exceeds the
baseline times 1.1 (resp. 1.2). -/
def MonteCarloSimulator.analyze_results (sim : MonteCarloSimulator)
    (results : List SimulationSample) : AnalysisStats :=
  let total_costs := results.map (fun s => s.total)
  { prob_over_budget :=
      ((total_costs.countP (fun t => decide (sim.base_cost * 1.1 < t)) : ℚ)) / total_costs.length,
    prob_over_budget_20 :=
      ((total_costs.countP (fun t => decide (sim.base_cost * 1.2 < t)) : ℚ)) / total_costs.length }

/-- The ontology interface: the risk graph and the cost-impact table. -/
structure ShipbuildingOntology where
  risk_structure : List (String × RiskFactor)
  cost_impacts : List (String × CostImpact)
deriving Repr

/-- Table `ShipbuildingOntology._build_sample_structure`. -/
def build_sample_structure : List (String × RiskFactor) :=
  [("material_delay", { name := "강재납기지연", probability := 0.30, parents := [] }),
   ("design_change", { name := "설계변경", probability := 0.15, parents := [] }),
   ("manpower_shortage", { name := "인력부족", probability := 0.25, parents := [] }),
   ("bad_weather", { name := "악천후", probability := 0.20, parents := [] }),
   ("block_delay", { name := "블록작업지연", probability := 0.0,
                     parents := ["material_delay", "manpower_shortage"] }),
   ("rework", { name := "재작업", probability := 0.0,
                parents := ["design_change", "bad_weather"] }),
   ("idle_time", { name := "대기시간", probability := 0.0,
                   parents := ["material_delay", "block_delay"] }),
   ("overtime", { name := "특근투입", probability := 0.0,
                  parents := ["block_delay", "idle_time"] }),
   ("material_waste", { name := "자재손실", probability := 0.0,
                        parents := ["rework", "design_change"] }),
   ("equipment_extend", { name := "장비임대연장", probability := 0.0,
                          parents := ["block_delay", "bad_weather"] })]

/-- Table `ShipbuildingOntology._build_cost_impacts`. -/
def build_cost_impacts : List (String × CostImpact) :=
  [("overtime", { factor := "특근투입", base_cost := 3.0, multiplier_if_triggered := 1.5 }),
   ("material_waste", { factor := "자재손실", base_cost := 1.0, multiplier_if_triggered := 2.0 }),
   ("equipment_extend", { factor := "장비임대연장", base_cost := 2.0, multiplier_if_triggered := 1.3 }),
   ("rework", { factor := "재작업", base_cost := 1.5, multiplier_if_triggered := 1.8 })]

/-- The constructed sample ontology. -/
def sampleOntology : ShipbuildingOntology :=
  { risk_structure := build_sample_structure, cost_impacts := build_cost_impacts }

/-- Table `BayesianNetworkModel._initialize_cpt`: CPT keys are the ordered parent
truth tuples, in the order of the factor's parent list. -/
def initialize_cpt : List (String × List (List Bool × ℚ)) :=
  [("block_delay",
    [([true, true], 0.85), ([true, false], 0.60), ([false, true], 0.55), ([false, false], 0.10)]),
   ("rework",
    [([true, true], 0.75), ([true, false], 0.50), ([false, true], 0.30), ([false, false], 0.05)]),
   ("idle_time",
    [([true, true], 0.90), ([true, false], 0.70), ([false, true], 0.50), ([false, false], 0.05)]),
   ("overtime",
    [([true, true], 0.95), ([true, false], 0.70), ([false, true], 0.60), ([false, false], 0.10)]),
   ("material_waste",
    [([true, true], 0.80), ([true, false], 0.60), ([false, true], 0.40), ([false, false], 0.05)]),
   ("equipment_extend",
    [([true, true], 0.85), ([true, false], 0.65), ([false, true], 0.45), ([false, false], 0.10)])]

/-- Constructor `BayesianNetworkModel.__init__`: graph from the ontology, the fixed
CPT, empty evidence. -/
def BayesianNetworkModel.init (o : ShipbuildingOntology) : BayesianNetworkModel :=
  { risk_structure := o.risk_structure, cpt := initialize_cpt, evidence := [] }

/-- Constructor `MonteCarloSimulator.__init__`: base cost is the constant `100.0`. -/
def MonteCarloSimulator.init (o : ShipbuildingOntology)
    (bn : BayesianNetworkModel) : MonteCarloSimulator :=
  { cost_impacts := o.cost_impacts, bayesian_model := bn, base_cost := 100 }

/-- The `DecisionSupportSystem` state: the cost table and the Bayesian model it
shares with its simulator (the simulator view is rebuilt by
`DecisionSupportSystem.simulator`, reflecting the shared mutable object of
the source). -/
structure DecisionSupportSystem where
  cost_impacts : List (String × CostImpact)
  bayesian_model : BayesianNetworkModel
deriving Repr

/-- Constructor `DecisionSupportSystem.__init__`. -/
def DecisionSupportSystem.init (o : ShipbuildingOntology) : DecisionSupportSystem :=
  { cost_impacts := o.cost_impacts, bayesian_model := BayesianNetworkModel.init o }

/-- The simulator as seen through the shared references of the system. -/
def DecisionSupportSystem.simulator (dss : DecisionSupportSystem) : MonteCarloSimulator :=
  { cost_impacts := dss.cost_impacts, bayesian_model := dss.bayesian_model, base_cost := 100 }

/-- Method `DecisionSupportSystem.what_if_analysis`: back up the evidence map,
apply the scenario events, run `analyze_current_risk` (whose computational
content is `get_all_probabilities`) and `run_cost_simulation(5000)`
(`run_simulation` followed by the pure `analyze_results`), then write the
backup back.  The restoration statement is the last statement of the
`try`-less method body, so an exception raised by either analysis step
propagates immediately and the restoration never runs: the second
component of the result is the system state after the call. -/
def DecisionSupportSystem.what_if_analysis (dss : DecisionSupportSystem)
    (fuel : Nat) (rng : Nat → ℚ) (events : List (String × Bool)) :
    Except RErr (List SimulationSample × AnalysisStats) × DecisionSupportSystem :=
  let original_evidence := dss.bayesian_model.evidence
  let dss1 : DecisionSupportSystem :=
    { dss with bayesian_model :=
        events.foldl (fun bn fo => bn.set_evidence fo.1 fo.2) dss.bayesian_model }
  match dss1.bayesian_model.get_all_probabilities fuel with
  | .error e => (.error e, dss1)
  | .ok _ =>
    match dss1.simulator.run_simulation fuel rng 5000 with
    | .error e => (.error e, dss1)
    | .ok results =>
      (.ok (results, dss1.simulator.analyze_results results),
       { dss1 with bayesian_model :=
           { dss1.bayesian_model with evidence := original_evidence } })

/-- Weight the spec assigns to one truth-state combination: the product
over parents of the parent marginal if marked true, else one minus it. -/
def combination_weight (qs : List ℚ) (states : List Bool) : ℚ :=
  ((qs.zip states).map (fun x => if x.2 then x.1 else 1 - x.1)).prod

/-- CPT value of a combination, a missing combination contributing zero. -/
def cpt_value (table : List (List Bool × ℚ)) (states : List Bool) : ℚ :=
  (alookup table states).getD 0

/-- The spec's marginal for a CPT-backed factor, as a function of the list
of parent marginals: the sum over all `2 ^ k` ordered truth-state
combinations of the combination weight times its CPT probability. -/
def cpt_marginal (qs : List ℚ) (table : List (List Bool × ℚ)) : ℚ :=
  ((List.range (2 ^ qs.length)).map (fun i =>
    combination_weight qs (parent_states_of qs.length i) *
      cpt_value table (parent_states_of qs.length i))).sum

/-- The CPT of the spec's two-parent example:
`{(T,T): 0.85, (T,F): 0.60, (F,T): 0.55, (F,F): 0.10}`. -/
def twoParentTable : List (List Bool × ℚ) :=
  [([true, true], 0.85), ([true, false], 0.60), ([false, true], 0.55), ([false, false], 0.10)]

/-- The two-parent example network of the spec: unconditioned parent
probabilities 0.30 and 0.25 and the CPT `twoParentTable` on the child. -/
def twoParentModel : BayesianNetworkModel :=
  { risk_structure :=
      [("p1", { name := "p1", probability := 0.30, parents := [] }),
       ("p2", { name := "p2", probability := 0.25, parents := [] }),
       ("c", { name := "c", probability := 0.0, parents := ["p1", "p2"] })],
    cpt := [("c", twoParentTable)],
    evidence := [] }

/-- A risk graph containing a cycle: factor `"a"` is its own parent; `"b"`
is an ordinary root. -/
def cyclicModel : BayesianNetworkModel :=
  { risk_structure :=
      [("a", { name := "a", probability := 0.5, parents := ["a"] }),
       ("b", { name := "b", probability := 0.5, parents := [] })],
    cpt := [],
    evidence := [] }

/-- A decision-support system over the cyclic graph. -/
def cyclicDSS : DecisionSupportSystem :=
  { cost_impacts := [], bayesian_model := cyclicModel }

/-- A one-root-factor model with evidence `"a" ↦ true`, for exercising the
simulator. -/
def oneFactorModel : BayesianNetworkModel :=
  { risk_structure := [("a", { name := "a", probability := 0.3, parents := [] })],
    cpt := [],
    evidence := [("a", true)] }

/-- A simulator over `oneFactorModel` with a single cost driver on `"a"`. -/
def oneFactorSim : MonteCarloSimulator :=
  { cost_impacts := [("a", { factor := "a", base_cost := 2.0, multiplier_if_triggered := 1.5 })],
    bayesian_model := oneFactorModel,
    base_cost := 100 }

/-- A fixed random oracle: every uniform draw is `1/2`. -/
def halfRng : Nat → ℚ := fun _ => 1 / 2

theorem calculate_probability_zero (m : BayesianNetworkModel) (factor : String) :
    m.calculate_probability 0 factor = .error .recursionError := rfl

theorem calculate_probability_succ (m : BayesianNetworkModel) (fuel : Nat)
    (factor : String) :
    m.calculate_probability (fuel + 1) factor =
      calcStep m (m.calculate_probability fuel) factor := rfl

theorem alookup_mem {κ α : Type} [DecidableEq κ] {l : List (κ × α)} {k : κ} {v : α}
    (h : alookup l k = some v) : (k, v) ∈ l := by
  induction l with
  | nil => simp [alookup] at h
  | cons kv t ih =>
    obtain ⟨k', v'⟩ := kv
    by_cases hk : k' = k
    · subst hk
      simp [alookup] at h
      simp [h]
    · simp [alookup, hk] at h
      exact List.mem_cons_of_mem _ (ih h)

theorem alookup_dictInsert_self {κ α : Type} [DecidableEq κ]
    (l : List (κ × α)) (k : κ) (v : α) :
    alookup (dictInsert l k v) k = some v := by
  induction l with
  | nil => simp [dictInsert, alookup]
  | cons kv t ih =>
    obtain ⟨k', v'⟩ := kv
    by_cases hk : k' = k
    · simp [dictInsert, hk, alookup]
    · simp [dictInsert, hk, alookup, ih]

theorem alookup_dictInsert_ne {κ α : Type} [DecidableEq κ]
    (l : List (κ × α)) (k k' : κ) (v : α) (hk : k' ≠ k) :
    alookup (dictInsert l k v) k' = alookup l k' := by
  have hk2 : ¬k = k' := fun h => hk h.symm
  induction l with
  | nil => simp [dictInsert, alookup, hk2]
  | cons kv t ih =>
    obtain ⟨k'', v''⟩ := kv
    by_cases h2 : k'' = k
    · subst h2
      simp [dictInsert, alookup, hk2]
    · simp [dictInsert, alookup, h2, ih]

theorem mapExcept_ok_forall₂ {ε α β : Type} {f : α → Except ε β} :
    ∀ {l : List α} {l' : List β}, mapExcept f l = .ok l' →
      List.Forall₂ (fun a b => f a = .ok b) l l' := by
  intro l
  induction l with
  | nil =>
    intro l' h
    simp [mapExcept] at h
    simp [← h]
  | cons a t ih =>
    intro l' h
    simp only [mapExcept] at h
    rcases ha : f a with e | b <;> rw [ha] at h
    · simp at h
    · rcases ht : mapExcept f t with e | bs <;> rw [ht] at h
      · simp at h
      · simp at h
        rw [← h]
        exact List.Forall₂.cons ha (ih ht)

theorem mapExcept_error_of_mem {ε α β : Type} {f : α → Except ε β} {a : α} {e : ε} :
    ∀ {l : List α}, a ∈ l → f a = .error e →
      ∃ e', mapExcept f l = .error e' := by
  intro l
  induction l with
  | nil => intro h; simp at h
  | cons b t ih =>
    intro hmem hfa
    simp only [mapExcept]
    rcases hb : f b with e'' | v
    · exact ⟨e'', rfl⟩
    · rcases List.mem_cons.mp hmem with h | h
      · subst h; rw [hfa] at hb; exact absurd hb (by simp)
      · obtain ⟨e', he'⟩ := ih h hfa
        rw [he']
        exact ⟨e', rfl⟩

theorem calcStep_evidence (m : BayesianNetworkModel)
    (rec : String → Except RErr ℚ) (factor : String) (risk : RiskFactor) (b : Bool)
    (hreg : alookup m.risk_structure factor = some risk)
    (hev : alookup m.evidence factor = some b) :
    calcStep m rec factor = .ok (if b then 1 else 0) := by
  unfold calcStep
  rw [hreg]
  by_cases hp : risk.parents.isEmpty <;> simp [hp, hev]

theorem calculate_probability_evidence (m : BayesianNetworkModel)
    (factor : String) (risk : RiskFactor) (b : Bool) (fuel : Nat)
    (hreg : alookup m.risk_structure factor = some risk)
    (hev : alookup m.evidence factor = some b) (hfuel : 0 < fuel) :
    m.calculate_probability fuel factor = .ok (if b then 1 else 0) := by
  obtain ⟨n, rfl⟩ := Nat.exists_eq_add_of_lt hfuel
  rw [Nat.zero_add, calculate_probability_succ]
  exact calcStep_evidence m _ factor risk b hreg hev

/-- C2: a registered factor id under an evidence override evaluates to
exactly 1 when the evidence value is true and exactly 0 when it is false,
short-circuiting all structural computation — for root factors and for
factors with parents alike (no condition on `risk.parents`). -/
theorem claim_evidence_override (m : BayesianNetworkModel)
    (factor : String) (risk : RiskFactor) (b : Bool) (fuel : Nat)
    (hreg : alookup m.risk_structure factor = some risk)
    (hev : alookup m.evidence factor = some b) (hfuel : 0 < fuel) :
    m.calculate_probability fuel factor = .ok (if b then 1 else 0) :=
  calculate_probability_evidence m factor risk b fuel hreg hev hfuel

/-- Witness for C2 at a factor that has parents and a CPT: with evidence
`block_delay ↦ false` the marginal of `block_delay` is exactly 0. -/
theorem claim_evidence_override_witness :
    ((BayesianNetworkModel.init sampleOntology).set_evidence "block_delay"
      false).calculate_probability 3 "block_delay" = .ok 0 := by
  have hreg : alookup ((BayesianNetworkModel.init sampleOntology).set_evidence
      "block_delay" false).risk_structure "block_delay" =
      some { name := "블록작업지연", probability := 0.0,
             parents := ["material_delay", "manpower_shortage"] } := by
    simp +decide [BayesianNetworkModel.init, BayesianNetworkModel.set_evidence,
      sampleOntology, build_sample_structure, alookup]
  have hev : alookup ((BayesianNetworkModel.init sampleOntology).set_evidence
      "block_delay" false).evidence "block_delay" = some false := by
    simp +decide [BayesianNetworkModel.init, BayesianNetworkModel.set_evidence,
      sampleOntology, alookup, dictInsert]
  simpa using claim_evidence_override _ "block_delay" _ false 3 hreg hev (by norm_num)

/-- C9: `set_evidence` is a total function accepting any factor id —
registered or not — whose whole effect is recording the boolean in the
evidence map (the risk graph is untouched); an unregistered id only fails
later, when `calculate_probability` is requested for it, with the
`KeyError` of the `risk_structure` lookup. -/
theorem claim_set_evidence_unchecked (m : BayesianNetworkModel)
    (factor : String) (occurred : Bool) (fuel : Nat) :
    alookup (m.set_evidence factor occurred).evidence factor = some occurred ∧
    (m.set_evidence factor occurred).risk_structure = m.risk_structure ∧
    (alookup m.risk_structure factor = none →
      (m.set_evidence factor occurred).calculate_probability (fuel + 1) factor =
        .error (.keyError factor)) := by
  refine ⟨alookup_dictInsert_self _ _ _, rfl, fun h => ?_⟩
  have h2 : alookup (m.set_evidence factor occurred).risk_structure factor = none := h
  rw [calculate_probability_succ]
  unfold calcStep
  rw [h2]

/-- Witness for C9: the unregistered id `"launch_delay"` is recorded by
`set_evidence` without error, and the later probability request for it
fails with the lookup error. -/
theorem claim_set_evidence_unchecked_witness :
    alookup ((BayesianNetworkModel.init sampleOntology).set_evidence
        "launch_delay" true).evidence "launch_delay" = some true ∧
    ((BayesianNetworkModel.init sampleOntology).set_evidence
        "launch_delay" true).calculate_probability 3 "launch_delay" =
      .error (.keyError "launch_delay") := by
  have h := claim_set_evidence_unchecked (BayesianNetworkModel.init sampleOntology)
    "launch_delay" true 2
  exact ⟨h.1, h.2.2 (by
    simp +decide [BayesianNetworkModel.init, sampleOntology, build_sample_structure,
      alookup])⟩

/-- Counterexample to C5 as stated: `run_simulation` performs no validation
of the iteration count; with `n = 0` it returns the empty sample list
successfully instead of failing with any `InvalidConfiguration`-style
error (no such error exists anywhere in the code). -/
theorem claim_nonpositive_counterexample :
    (MonteCarloSimulator.init sampleOntology
      (BayesianNetworkModel.init sampleOntology)).run_simulation 1 halfRng 0 =
      .ok [] := rfl

/-- C5 amended: for every non-positive iteration count the simulation loop
body never runs and `run_simulation` returns the empty sample sequence
without raising any error. -/
theorem claim_nonpositive_run_empty (sim : MonteCarloSimulator) (fuel : Nat)
    (rng : Nat → ℚ) (n : Int) (hn : n ≤ 0) :
    sim.run_simulation fuel rng n = .ok [] := by
  unfold MonteCarloSimulator.run_simulation
  rw [Int.toNat_of_nonpos hn]
  rfl

/-- Witness for the amended C5 at `n = -1`. -/
theorem claim_nonpositive_run_empty_witness :
    oneFactorSim.run_simulation 1 halfRng (-1) = .ok [] :=
  claim_nonpositive_run_empty oneFactorSim 1 halfRng (-1) (by norm_num)

/-- C3 amended: the what-if operation restores the pre-call evidence map on
the normal-completion path only.  When either analysis step raises, the
exception propagates past the restoration statement (the method has no
try/finally), so the scenario overrides remain applied: afterwards the
evidence is that of the pre-call model with all events applied. -/
theorem claim_what_if_evidence_paths (dss : DecisionSupportSystem) (fuel : Nat)
    (rng : Nat → ℚ) (events : List (String × Bool)) :
    (dss.what_if_analysis fuel rng events).2.bayesian_model.evidence =
      match (dss.what_if_analysis fuel rng events).1 with
      | .ok _ => dss.bayesian_model.evidence
      | .error _ =>
        (events.foldl (fun bn fo => bn.set_evidence fo.1 fo.2)
          dss.bayesian_model).evidence := by
  unfold DecisionSupportSystem.what_if_analysis
  cases hga : BayesianNetworkModel.get_all_probabilities
      (events.foldl (fun bn fo => bn.set_evidence fo.1 fo.2) dss.bayesian_model) fuel with
  | error e => simp [hga]
  | ok ps =>
    cases hrun : MonteCarloSimulator.run_simulation
        (DecisionSupportSystem.simulator
          { dss with bayesian_model :=
              events.foldl (fun bn fo => bn.set_evidence fo.1 fo.2) dss.bayesian_model })
        fuel rng 5000 with
    | error e => simp [hga, hrun]
    | ok results => simp [hga, hrun]

/-- Counterexample to C3 as stated: over a cyclic risk graph the
probability analysis raises, the restoration statement never runs, and the
applied scenario override survives the call — the evidence map afterwards
differs from the (empty) map captured before. -/
theorem claim_what_if_restores_counterexample :
    (cyclicDSS.what_if_analysis 3 halfRng [("b", true)]).2.bayesian_model.evidence ≠
      cyclicDSS.bayesian_model.evidence := by
  simp +decide [DecisionSupportSystem.what_if_analysis, cyclicDSS, cyclicModel,
    BayesianNetworkModel.get_all_probabilities, BayesianNetworkModel.set_evidence,
    mapExcept, calculate_probability_succ, calculate_probability_zero, calcStep,
    alookup, dictInsert, foldlExcept]

theorem cyclic_set_never_ok (m : BayesianNetworkModel) (S : List String)
    (hS : ∀ g ∈ S, ∃ rf, alookup m.risk_structure g = some rf ∧
      (∃ p ∈ rf.parents, p ∈ S) ∧ alookup m.evidence g = none) :
    ∀ fuel, ∀ g ∈ S, ∃ e, m.calculate_probability fuel g = .error e := by
  intro fuel
  induction fuel with
  | zero => intro g _; exact ⟨.recursionError, rfl⟩
  | succ n ih =>
    intro g hg
    obtain ⟨rf, hreg, ⟨p, hp, hpS⟩, hev⟩ := hS g hg
    obtain ⟨ep, hep⟩ := ih p hpS
    obtain ⟨e', he'⟩ := mapExcept_error_of_mem hp hep
    refine ⟨e', ?_⟩
    rw [calculate_probability_succ]
    unfold calcStep
    rw [hreg]
    have hne : ¬rf.parents.isEmpty := by
      cases hpar : rf.parents with
      | nil => rw [hpar] at hp; simp at hp
      | cons a t => simp [hpar]
    simp only [hne, if_false, Bool.false_eq_true, hev, he']

/-- C4 amended: the evaluation performs no revisit detection at all.  For a
factor lying on (or upstream-connected into) a cycle of registered,
evidence-free factors, `calculate_probability` never returns a probability
value for any recursion budget: the recursion regresses through the cycle
until the budget is exhausted and the resulting error (the modelled
`RecursionError`, or an error propagated from another factor) surfaces —
there is no `CyclicGraph` error anywhere in the code. -/
theorem claim_cyclic_never_returns (m : BayesianNetworkModel) (S : List String)
    (g : String) (hg : g ∈ S)
    (hS : ∀ x ∈ S, ∃ rf, alookup m.risk_structure x = some rf ∧
      (∃ p ∈ rf.parents, p ∈ S) ∧ alookup m.evidence x = none)
    (fuel : Nat) (q : ℚ) :
    m.calculate_probability fuel g ≠ .ok q := by
  obtain ⟨e, he⟩ := cyclic_set_never_ok m S hS fuel g hg
  rw [he]
  simp

/-- Witness for the amended C4 on the concrete self-cycle `a → a`. -/
theorem claim_cyclic_never_returns_witness :
    cyclicModel.calculate_probability 7 "a" ≠ .ok (1 / 2) := by
  refine claim_cyclic_never_returns cyclicModel ["a"] "a" (by simp) ?_ 7 (1 / 2)
  intro x hx
  simp at hx
  subst hx
  exact ⟨{ name := "a", probability := 0.5, parents := ["a"] },
    by simp +decide [cyclicModel, alookup], ⟨"a", by simp, by simp⟩,
    by simp +decide [cyclicModel, alookup]⟩

/-- Counterexample to C4 as stated: on the self-cycle `a → a` the request
does not fail with any cycle-detection error; the recursion simply runs the
budget out and surfaces the runtime recursion-limit error
(`RecursionError`), which is the modelled behaviour of the unbounded
Python recursion.  No probability value is returned, but no `CyclicGraph`
detection exists. -/
theorem claim_cyclic_counterexample :
    cyclicModel.calculate_probability 5 "a" = .error .recursionError := by
  simp +decide [calculate_probability_succ, calculate_probability_zero, calcStep,
    cyclicModel, alookup, mapExcept, foldlExcept, parent_states_of]

theorem mapExcept_ok_of_forall₂ {ε α β : Type} {f : α → Except ε β}
    {l : List α} {l' : List β}
    (h : List.Forall₂ (fun a b => f a = .ok b) l l') : mapExcept f l = .ok l' := by
  induction h with
  | nil => rfl
  | cons h1 _ ih => simp [mapExcept, h1, ih]

theorem forall₂_mem_right {α β : Type} {R : α → β → Prop} {l : List α}
    {l' : List β} {b : β} (h : List.Forall₂ R l l') (hb : b ∈ l') :
    ∃ a ∈ l, R a b := by
  induction h with
  | nil => simp at hb
  | cons h1 _ ih =>
    rcases List.mem_cons.mp hb with h | h
    · subst h; exact ⟨_, by simp, h1⟩
    · obtain ⟨a, ha, hr⟩ := ih h
      exact ⟨a, List.mem_cons_of_mem _ ha, hr⟩

theorem combination_weight_cons (q : ℚ) (qs : List ℚ) (s : Bool) (states : List Bool) :
    combination_weight (q :: qs) (s :: states) =
      (if s then q else 1 - q) * combination_weight qs states := by
  simp [combination_weight]

theorem foldlExcept_combStep (rec : String → Except RErr ℚ) :
    ∀ (parents : List String) (qs : List ℚ) (states : List Bool) (a : ℚ),
      List.Forall₂ (fun p q => rec p = .ok q) parents qs →
      foldlExcept (combStep rec) a (parents.zip states) =
        .ok (a * combination_weight qs states) := by
  intro parents
  induction parents with
  | nil =>
    intro qs states a h
    cases h
    simp [foldlExcept, combination_weight]
  | cons p pt ih =>
    intro qs states a h
    cases h with
    | cons hpq htail =>
      cases states with
      | nil => simp [foldlExcept, combination_weight]
      | cons s st =>
        show foldlExcept (combStep rec) a ((p, s) :: pt.zip st) = _
        simp only [foldlExcept, combStep, hpq]
        rw [ih _ _ _ htail, combination_weight_cons, mul_assoc]

theorem cptStep_ok (rec : String → Except RErr ℚ) (parents : List String)
    (qs : List ℚ) (table : List (List Bool × ℚ))
    (hq : List.Forall₂ (fun p q => rec p = .ok q) parents qs) (t : ℚ) (i : Nat) :
    cptStep rec parents table t i =
      .ok (t + combination_weight qs (parent_states_of parents.length i) *
        cpt_value table (parent_states_of parents.length i)) := by
  unfold cptStep
  rw [foldlExcept_combStep rec parents qs _ 1 hq]
  cases halo : alookup table (parent_states_of parents.length i) with
  | some c => simp [cpt_value, halo]
  | none => simp [cpt_value, halo]

theorem foldlExcept_cptStep (rec : String → Except RErr ℚ) (parents : List String)
    (qs : List ℚ) (table : List (List Bool × ℚ))
    (hq : List.Forall₂ (fun p q => rec p = .ok q) parents qs) :
    ∀ (l : List Nat) (t : ℚ),
      foldlExcept (cptStep rec parents table) t l =
        .ok (t + (l.map (fun i =>
          combination_weight qs (parent_states_of parents.length i) *
            cpt_value table (parent_states_of parents.length i))).sum) := by
  intro l
  induction l with
  | nil => intro t; simp [foldlExcept]
  | cons i it ih =>
    intro t
    simp only [foldlExcept, cptStep_ok rec parents qs table hq t i]
    rw [ih]
    congr 1
    simp only [List.map_cons, List.sum_cons]
    ring

theorem calcStep_cpt (m : BayesianNetworkModel) (rec : String → Except RErr ℚ)
    (factor : String) (risk : RiskFactor) (table : List (List Bool × ℚ)) (qs : List ℚ)
    (hreg : alookup m.risk_structure factor = some risk)
    (hpar : risk.parents ≠ [])
    (hev : alookup m.evidence factor = none)
    (hcpt : alookup m.cpt factor = some table)
    (hq : List.Forall₂ (fun p q => rec p = .ok q) risk.parents qs) :
    calcStep m rec factor = .ok (cpt_marginal qs table) := by
  have hne : risk.parents.isEmpty = false := by
    cases hpar' : risk.parents with
    | nil => exact absurd hpar' hpar
    | cons a t => simp [hpar']
  have hlen : qs.length = risk.parents.length := (List.Forall₂.length_eq hq).symm
  unfold calcStep
  rw [hreg]
  simp only [hne, Bool.false_eq_true, if_false, hev, mapExcept_ok_of_forall₂ hq, hcpt]
  rw [foldlExcept_cptStep rec risk.parents qs table hq]
  unfold cpt_marginal
  rw [hlen, zero_add]

/-- C1: for every registered factor with parents, a CPT, no evidence entry
for itself, and parent marginals all computable at the given budget, the
computed marginal is exactly the spec's sum over all `2 ^ k` ordered parent
truth-state combinations of the combination weight (product over parents of
the parent marginal if the combination marks it true, else one minus it)
times the CPT probability of the combination, a missing combination
contributing zero (`cpt_marginal`). -/
theorem claim_cpt_marginal (m : BayesianNetworkModel) (factor : String)
    (risk : RiskFactor) (table : List (List Bool × ℚ)) (qs : List ℚ) (fuel : Nat)
    (hreg : alookup m.risk_structure factor = some risk)
    (hpar : risk.parents ≠ [])
    (hev : alookup m.evidence factor = none)
    (hcpt : alookup m.cpt factor = some table)
    (hq : List.Forall₂ (fun p q => m.calculate_probability fuel p = .ok q)
      risk.parents qs) :
    m.calculate_probability (fuel + 1) factor = .ok (cpt_marginal qs table) := by
  rw [calculate_probability_succ]
  exact calcStep_cpt m _ factor risk table qs hreg hpar hev hcpt hq

/-- Witness for C1: the spec's two-parent example with parent marginals
0.30 and 0.25 evaluates to exactly 0.3475 (hence within any positive
tolerance of 0.3475). -/
theorem claim_cpt_marginal_witness :
    twoParentModel.calculate_probability 2 "c" = .ok 0.3475 := by
  have h1 : twoParentModel.calculate_probability 1 "p1" = .ok 0.30 := by
    simp +decide [calculate_probability_succ, calculate_probability_zero, calcStep,
      twoParentModel, alookup]
  have h2 : twoParentModel.calculate_probability 1 "p2" = .ok 0.25 := by
    simp +decide [calculate_probability_succ, calculate_probability_zero, calcStep,
      twoParentModel, alookup]
  have hq : List.Forall₂
      (fun p q => twoParentModel.calculate_probability 1 p = .ok q)
      ["p1", "p2"] [(0.30 : ℚ), 0.25] :=
    List.Forall₂.cons h1 (List.Forall₂.cons h2 List.Forall₂.nil)
  have h := claim_cpt_marginal twoParentModel "c"
    { name := "c", probability := 0.0, parents := ["p1", "p2"] } twoParentTable
    [(0.30 : ℚ), 0.25] 1
    (by simp +decide [twoParentModel, alookup])
    (by simp)
    (by simp +decide [twoParentModel, alookup])
    (by simp +decide [twoParentModel, alookup])
    hq
  rw [h]
  have hr4 : List.range 4 = [0, 1, 2, 3] := rfl
  have hr2 : List.range 2 = [0, 1] := rfl
  have : cpt_marginal [(0.30 : ℚ), 0.25] twoParentTable = 0.3475 := by
    simp +decide [cpt_marginal, combination_weight, cpt_value, parent_states_of,
      twoParentTable, alookup, hr4, hr2]
    norm_num
  rw [this]

theorem list_sum_nonneg_of_mem (l : List ℚ) (h : ∀ x ∈ l, 0 ≤ x) : 0 ≤ l.sum := by
  induction l with
  | nil => simp
  | cons a t ih =>
    rw [List.sum_cons]
    exact add_nonneg (h a (by simp)) (ih (fun x hx => h x (List.mem_cons_of_mem _ hx)))

theorem list_prod_unit (l : List ℚ) (h : ∀ x ∈ l, 0 ≤ x ∧ x ≤ 1) :
    0 ≤ l.prod ∧ l.prod ≤ 1 := by
  induction l with
  | nil => simp
  | cons a t ih =>
    obtain ⟨ha0, ha1⟩ := h a (by simp)
    obtain ⟨ht0, ht1⟩ := ih (fun x hx => h x (List.mem_cons_of_mem _ hx))
    rw [List.prod_cons]
    exact ⟨mul_nonneg ha0 ht0, mul_le_one₀ ha1 ht0 ht1⟩

theorem combination_weight_unit (qs : List ℚ) (states : List Bool)
    (h : ∀ q ∈ qs, 0 ≤ q ∧ q ≤ 1) :
    0 ≤ combination_weight qs states ∧ combination_weight qs states ≤ 1 := by
  apply list_prod_unit
  intro x hx
  unfold combination_weight at hx
  obtain ⟨⟨q, s⟩, hmem, rfl⟩ := List.mem_map.mp hx
  obtain ⟨hq, -⟩ := List.of_mem_zip hmem
  obtain ⟨h0, h1⟩ := h q hq
  by_cases hs : s = true <;> simp [hs] <;> constructor <;> linarith

theorem cpt_value_unit (table : List (List Bool × ℚ))
    (h : ∀ ent ∈ table, 0 ≤ ent.2 ∧ ent.2 ≤ 1) (states : List Bool) :
    0 ≤ cpt_value table states ∧ cpt_value table states ≤ 1 := by
  unfold cpt_value
  cases halo : alookup table states with
  | none => simp
  | some c => simpa using h (states, c) (alookup_mem halo)

theorem map_sum_range_two_mul (f : Nat → ℚ) :
    ∀ n : Nat, ((List.range (2 * n)).map f).sum =
      ((List.range n).map (fun i => f (2 * i) + f (2 * i + 1))).sum := by
  intro n
  induction n with
  | zero => simp
  | succ k ih =>
    have h2 : 2 * (k + 1) = 2 * k + 1 + 1 := by ring
    rw [h2, List.range_succ, List.range_succ, List.range_succ]
    simp only [List.map_append, List.sum_append, List.map_cons, List.sum_cons,
      List.map_nil, List.sum_nil, ih]
    ring

theorem parent_states_of_succ (k i : Nat) :
    parent_states_of (k + 1) i = i.testBit 0 :: parent_states_of k (i / 2) := by
  unfold parent_states_of
  rw [List.range_succ_eq_map]
  simp [List.map_map, Function.comp, Nat.succ_eq_add_one, Nat.testBit_add_one]

theorem testBit_zero_two_mul (i : Nat) : (2 * i).testBit 0 = false := by
  simp [Nat.testBit_zero]

theorem testBit_zero_two_mul_add_one (i : Nat) : (2 * i + 1).testBit 0 = true := by
  simp [Nat.testBit_zero]
  omega

theorem sum_combination_weight (qs : List ℚ) :
    ((List.range (2 ^ qs.length)).map
      (fun i => combination_weight qs (parent_states_of qs.length i))).sum = 1 := by
  induction qs with
  | nil => simp [parent_states_of, combination_weight]
  | cons q qt ih =>
    have hp : (2 : Nat) ^ (q :: qt).length = 2 * 2 ^ qt.length := by
      simp [List.length_cons, pow_succ]
      ring
    rw [hp, map_sum_range_two_mul]
    have hterm : ∀ i : Nat,
        combination_weight (q :: qt) (parent_states_of (q :: qt).length (2 * i)) +
          combination_weight (q :: qt) (parent_states_of (q :: qt).length (2 * i + 1)) =
          combination_weight qt (parent_states_of qt.length i) := by
      intro i
      have h1 : 2 * i / 2 = i := by omega
      have h2 : (2 * i + 1) / 2 = i := by omega
      rw [List.length_cons, parent_states_of_succ, parent_states_of_succ,
        testBit_zero_two_mul, testBit_zero_two_mul_add_one, h1, h2,
        combination_weight_cons, combination_weight_cons]
      simp only [Bool.false_eq_true, if_false, if_true]
      ring_nf
    simp only [hterm]
    exact ih

theorem cpt_marginal_unit (qs : List ℚ) (table : List (List Bool × ℚ))
    (hq : ∀ q ∈ qs, 0 ≤ q ∧ q ≤ 1)
    (ht : ∀ ent ∈ table, 0 ≤ ent.2 ∧ ent.2 ≤ 1) :
    0 ≤ cpt_marginal qs table ∧ cpt_marginal qs table ≤ 1 := by
  constructor
  · apply list_sum_nonneg_of_mem
    intro x hx
    obtain ⟨i, -, rfl⟩ := List.mem_map.mp hx
    exact mul_nonneg (combination_weight_unit qs _ hq).1 (cpt_value_unit table ht _).1
  · calc cpt_marginal qs table ≤
        ((List.range (2 ^ qs.length)).map
          (fun i => combination_weight qs (parent_states_of qs.length i))).sum := by
          apply List.sum_le_sum
          intro i _
          have hw := combination_weight_unit qs (parent_states_of qs.length i) hq
          have hc := cpt_value_unit table ht (parent_states_of qs.length i)
          calc combination_weight qs (parent_states_of qs.length i) *
              cpt_value table (parent_states_of qs.length i) ≤
              combination_weight qs (parent_states_of qs.length i) * 1 :=
                mul_le_mul_of_nonneg_left hc.2 hw.1
            _ = combination_weight qs (parent_states_of qs.length i) := mul_one _
      _ = 1 := sum_combination_weight qs

theorem calcStep_unit (m : BayesianNetworkModel) (rec : String → Except RErr ℚ)
    (hroot : ∀ kv ∈ m.risk_structure, kv.2.parents = [] →
      0 ≤ kv.2.probability ∧ kv.2.probability ≤ 1)
    (hcpt : ∀ te ∈ m.cpt, ∀ ent ∈ te.2, 0 ≤ ent.2 ∧ ent.2 ≤ 1)
    (hrec : ∀ p q, rec p = .ok q → 0 ≤ q ∧ q ≤ 1)
    (factor : String) (q : ℚ) (h : calcStep m rec factor = .ok q) :
    0 ≤ q ∧ q ≤ 1 := by
  unfold calcStep at h
  cases hreg : alookup m.risk_structure factor with
  | none => rw [hreg] at h; simp at h
  | some risk =>
    rw [hreg] at h
    dsimp only at h
    by_cases hie : risk.parents.isEmpty = true
    · rw [if_pos hie] at h
      cases hev : alookup m.evidence factor with
      | some occurred =>
        rw [hev] at h
        simp only [Except.ok.injEq] at h
        subst h
        by_cases ho : occurred = true <;> simp [ho]
      | none =>
        rw [hev] at h
        simp only [Except.ok.injEq] at h
        subst h
        exact hroot (factor, risk) (alookup_mem hreg) (List.isEmpty_iff.mp hie)
    · rw [if_neg hie] at h
      cases hev : alookup m.evidence factor with
      | some occurred =>
        rw [hev] at h
        simp only [Except.ok.injEq] at h
        subst h
        by_cases ho : occurred = true <;> simp [ho]
      | none =>
        rw [hev] at h
        dsimp only at h
        cases hmap : mapExcept rec risk.parents with
        | error e => rw [hmap] at h; simp at h
        | ok parent_probs =>
          rw [hmap] at h
          dsimp only at h
          have hf2 := mapExcept_ok_forall₂ hmap
          have hps : ∀ x ∈ parent_probs, 0 ≤ x ∧ x ≤ 1 := by
            intro x hx
            obtain ⟨p, -, hr⟩ := forall₂_mem_right hf2 hx
            exact hrec p x hr
          cases hct : alookup m.cpt factor with
          | none =>
            rw [hct] at h
            simp only [Except.ok.injEq] at h
            subst h
            have := list_prod_unit (parent_probs.map (fun p => 1 - p)) (by
              intro x hx
              obtain ⟨p, hp, rfl⟩ := List.mem_map.mp hx
              obtain ⟨h0, h1⟩ := hps p hp
              constructor <;> linarith)
            constructor <;> linarith [this.1, this.2]
          | some table =>
            rw [hct] at h
            dsimp only at h
            rw [foldlExcept_cptStep rec risk.parents parent_probs table hf2] at h
            simp only [Except.ok.injEq] at h
            have hlen : risk.parents.length = parent_probs.length :=
              List.Forall₂.length_eq hf2
            rw [hlen] at h
            have hb := cpt_marginal_unit parent_probs table hps (fun ent hent =>
              hcpt (factor, table) (alookup_mem hct) ent hent)
            unfold cpt_marginal at hb
            rw [← h]
            simpa using hb

/-- C7: a probability value returned by `calculate_probability` — for any
factor, any evidence configuration, and any recursion budget — lies in
`[0, 1]`, provided every root base probability and every CPT entry of the
model lies in `[0, 1]` (for cyclic graphs no value is returned at all, so
the statement covers them vacuously). -/
theorem claim_probability_unit_interval (m : BayesianNetworkModel)
    (hroot : ∀ kv ∈ m.risk_structure, kv.2.parents = [] →
      0 ≤ kv.2.probability ∧ kv.2.probability ≤ 1)
    (hcpt : ∀ te ∈ m.cpt, ∀ ent ∈ te.2, 0 ≤ ent.2 ∧ ent.2 ≤ 1)
    (fuel : Nat) (factor : String) (q : ℚ)
    (h : m.calculate_probability fuel factor = .ok q) :
    0 ≤ q ∧ q ≤ 1 := by
  induction fuel generalizing factor q with
  | zero => rw [calculate_probability_zero] at h; simp at h
  | succ n ih =>
    rw [calculate_probability_succ] at h
    exact calcStep_unit m _ hroot hcpt (fun p qq hqq => ih p qq hqq) factor q h

/-- Witness for C7 on the two-parent example model (all of whose root
probabilities and CPT entries lie in `[0, 1]`): the returned marginal
0.3475 lies in `[0, 1]`. -/
theorem claim_probability_unit_interval_witness :
    0 ≤ (0.3475 : ℚ) ∧ (0.3475 : ℚ) ≤ 1 := by
  have heval : twoParentModel.calculate_probability 2 "c" = .ok 0.3475 := by
    have hr4 : List.range 4 = [0, 1, 2, 3] := rfl
    have hr2 : List.range 2 = [0, 1] := rfl
    simp +decide [calculate_probability_succ, calculate_probability_zero, calcStep,
      cptStep, combStep, twoParentModel, twoParentTable, alookup, mapExcept,
      foldlExcept, parent_states_of, hr4, hr2]
    norm_num
  refine claim_probability_unit_interval twoParentModel ?_ ?_ 2 "c" 0.3475 heval
  · intro kv hkv
    simp [twoParentModel] at hkv
    rcases hkv with h | h | h <;> subst h <;> intro _ <;> constructor <;> norm_num
  · intro te hte ent hent
    simp [twoParentModel] at hte
    subst hte
    simp [twoParentTable] at hent
    rcases hent with h | h | h | h <;> subst h <;> constructor <;> norm_num

theorem total_cost_of_eq :
    ∀ (cost_impacts : List (String × CostImpact)) (base_cost : ℚ)
      (st : List (String × Bool)),
      total_cost_of cost_impacts base_cost st =
        base_cost + ((cost_impacts.filter
            (fun kv => decide (alookup st kv.1 = some true))).map
          (fun kv => kv.2.base_cost * kv.2.multiplier_if_triggered)).sum := by
  intro ci
  induction ci with
  | nil => intro base st; simp [total_cost_of]
  | cons kv t ih =>
    intro base st
    unfold total_cost_of at ih ⊢
    rw [List.foldl_cons]
    by_cases hk : alookup st kv.1 = some true
    · rw [if_pos hk, ih, List.filter_cons_of_pos (by simp [hk])]
      simp only [List.map_cons, List.sum_cons]
      ring
    · rw [if_neg hk, ih, List.filter_cons_of_neg (by simp [hk])]

theorem runStep_fold_spec (sim : MonteCarloSimulator) (fuel : Nat) (rng : Nat → ℚ) :
    ∀ (l : List Nat) (acc out : List SimulationSample × Nat),
      foldlExcept (runStep sim fuel rng) acc l = .ok out →
      out.1.length = acc.1.length + l.length ∧
      ∀ s ∈ out.1, s ∈ acc.1 ∨ ∃ st c c',
        sampleIteration sim.bayesian_model fuel rng c = .ok (st, c') ∧
        s = { state := st, total := total_cost_of sim.cost_impacts sim.base_cost st } := by
  intro l
  induction l with
  | nil =>
    intro acc out h
    simp only [foldlExcept, Except.ok.injEq] at h
    subst h
    exact ⟨by simp, fun s hs => Or.inl hs⟩
  | cons i it ih =>
    intro acc out h
    simp only [foldlExcept] at h
    cases hstep : runStep sim fuel rng acc i with
    | error e => rw [hstep] at h; simp at h
    | ok acc' =>
      rw [hstep] at h
      dsimp only at h
      obtain ⟨hlen, hmem⟩ := ih acc' out h
      unfold runStep at hstep
      cases hsi : sampleIteration sim.bayesian_model fuel rng acc.2 with
      | error e => rw [hsi] at hstep; simp at hstep
      | ok si =>
        rw [hsi] at hstep
        simp only [Except.ok.injEq] at hstep
        subst hstep
        constructor
        · simp only [List.length_append, List.length_cons, List.length_nil] at hlen ⊢
          omega
        · intro s hs
          rcases hmem s hs with hin | hex
          · rcases List.mem_append.mp hin with h1 | h2
            · exact Or.inl h1
            · simp only [List.mem_singleton] at h2
              subst h2
              exact Or.inr ⟨si.1, acc.2, si.2, hsi, rfl⟩
          · exact Or.inr hex

/-- C6: a successful `run_simulation` with a positive iteration count `n`
returns exactly `n` samples; every sample's total cost is the configured
baseline plus the sum, over cost drivers whose factor occurred in the
sample, of `base_cost * multiplier_if_triggered`; when all base costs and
multipliers are positive, every sample's total cost is therefore at least
the baseline. -/
theorem claim_run_samples (sim : MonteCarloSimulator) (fuel : Nat) (rng : Nat → ℚ)
    (n : Int) (samples : List SimulationSample)
    (hn : 0 < n)
    (hrun : sim.run_simulation fuel rng n = .ok samples) :
    (samples.length : Int) = n ∧
    (∀ s ∈ samples, s.total = sim.base_cost +
      ((sim.cost_impacts.filter (fun kv => decide (alookup s.state kv.1 = some true))).map
        (fun kv => kv.2.base_cost * kv.2.multiplier_if_triggered)).sum) ∧
    ((∀ kv ∈ sim.cost_impacts, 0 < kv.2.base_cost ∧ 0 < kv.2.multiplier_if_triggered) →
      ∀ s ∈ samples, sim.base_cost ≤ s.total) := by
  unfold MonteCarloSimulator.run_simulation at hrun
  cases hfold : foldlExcept (runStep sim fuel rng) ([], 0) (List.range n.toNat) with
  | error e => rw [hfold] at hrun; simp at hrun
  | ok r =>
    rw [hfold] at hrun
    simp only [Except.ok.injEq] at hrun
    subst hrun
    obtain ⟨hlen, hmem⟩ := runStep_fold_spec sim fuel rng _ _ _ hfold
    refine ⟨?_, ?_, ?_⟩
    · rw [hlen]
      simp only [List.length_nil, List.length_range, Nat.zero_add]
      exact_mod_cast congrArg Int.ofNat (rfl : n.toNat = n.toNat) |>.trans
        (by exact_mod_cast Int.toNat_of_nonneg hn.le)
    · intro s hs
      rcases hmem s hs with hin | ⟨st, c, c', hsi, rfl⟩
      · simp at hin
      · exact total_cost_of_eq sim.cost_impacts sim.base_cost st
    · intro hpos s hs
      rcases hmem s hs with hin | ⟨st, c, c', hsi, rfl⟩
      · simp at hin
      · have hsum : 0 ≤ ((sim.cost_impacts.filter
            (fun kv => decide (alookup st kv.1 = some true))).map
          (fun kv => kv.2.base_cost * kv.2.multiplier_if_triggered)).sum := by
          apply list_sum_nonneg_of_mem
          intro x hx
          obtain ⟨kv, hkv, rfl⟩ := List.mem_map.mp hx
          obtain ⟨h1, h2⟩ := hpos kv (List.mem_of_mem_filter hkv)
          positivity
        have := total_cost_of_eq sim.cost_impacts sim.base_cost st
        simp only
        linarith [this]

theorem sampleStep_fold_evidence (bn : BayesianNetworkModel) (fuel : Nat)
    (rng : Nat → ℚ) (f : String) (rf : RiskFactor) (b : Bool)
    (hrng : ∀ t, 0 ≤ rng t ∧ rng t < 1)
    (hfuel : 0 < fuel)
    (hreg : alookup bn.risk_structure f = some rf)
    (hev : alookup bn.evidence f = some b) :
    ∀ (l : List (String × RiskFactor)) (acc out : List (String × Bool) × Nat),
      foldlExcept (sampleStep bn fuel rng) acc l = .ok out →
      (f ∈ l.map Prod.fst → alookup out.1 f = some b) ∧
      (alookup acc.1 f = some b → alookup out.1 f = some b) := by
  intro l
  induction l with
  | nil =>
    intro acc out h
    simp only [foldlExcept, Except.ok.injEq] at h
    subst h
    exact ⟨by simp, id⟩
  | cons kv t ih =>
    intro acc out h
    simp only [foldlExcept] at h
    cases hstep : sampleStep bn fuel rng acc kv with
    | error e => rw [hstep] at h; simp at h
    | ok acc' =>
      rw [hstep] at h
      dsimp only at h
      obtain ⟨ih1, ih2⟩ := ih acc' out h
      unfold sampleStep at hstep
      cases hcp : bn.calculate_probability fuel kv.1 with
      | error e => rw [hcp] at hstep; simp at hstep
      | ok prob =>
        rw [hcp] at hstep
        simp only [Except.ok.injEq] at hstep
        subst hstep
        by_cases hkf : kv.1 = f
        · have hprob : prob = if b then 1 else 0 := by
            have hcp2 := calculate_probability_evidence bn f rf b fuel hreg hev hfuel
            rw [hkf] at hcp
            rw [hcp] at hcp2
            exact (Except.ok.injEq _ _ ▸ hcp2).symm ▸ rfl
          have hval : (decide (rng acc.2 < prob)) = b := by
            obtain ⟨h0, h1⟩ := hrng acc.2
            subst hprob
            cases b with
            | false =>
              simp only [Bool.false_eq_true, if_false]
              exact decide_eq_false (not_lt.mpr h0)
            | true =>
              simp only [if_true]
              exact decide_eq_true h1
          have hacc' : alookup (dictInsert acc.1 kv.1 (decide (rng acc.2 < prob))) f =
              some b := by
            rw [hkf, hval]
            exact alookup_dictInsert_self acc.1 f b
          exact ⟨fun _ => ih2 hacc', fun _ => ih2 hacc'⟩
        · constructor
          · intro hf
            simp only [List.map_cons, List.mem_cons] at hf
            rcases hf with h1 | h1
            · exact absurd h1.symm hkf
            · exact ih1 h1
          · intro hacc
            apply ih2
            rw [alookup_dictInsert_ne acc.1 kv.1 f _ (fun hh => hkf hh.symm)]
            exact hacc

/-- C10: in every sample of a successful run, a registered factor under an
evidence override is marked occurred exactly when the evidence value is
true: its marginal is exactly 1 (resp. 0), and a uniform draw in `[0, 1)`
compared strictly against it yields `true` (resp. `false`) for every value
of the random stream, so the factor is deterministic across all
iterations. -/
theorem claim_evidence_deterministic_sampling (sim : MonteCarloSimulator)
    (fuel : Nat) (rng : Nat → ℚ) (n : Int) (f : String) (rf : RiskFactor) (b : Bool)
    (samples : List SimulationSample)
    (hrng : ∀ t, 0 ≤ rng t ∧ rng t < 1)
    (hfuel : 0 < fuel)
    (hreg : alookup sim.bayesian_model.risk_structure f = some rf)
    (hev : alookup sim.bayesian_model.evidence f = some b)
    (hrun : sim.run_simulation fuel rng n = .ok samples) :
    ∀ s ∈ samples, alookup s.state f = some b := by
  unfold MonteCarloSimulator.run_simulation at hrun
  cases hfold : foldlExcept (runStep sim fuel rng) ([], 0) (List.range n.toNat) with
  | error e => rw [hfold] at hrun; simp at hrun
  | ok r =>
    rw [hfold] at hrun
    simp only [Except.ok.injEq] at hrun
    subst hrun
    obtain ⟨-, hmem⟩ := runStep_fold_spec sim fuel rng _ _ _ hfold
    intro s hs
    rcases hmem s hs with hin | ⟨st, c, c', hsi, rfl⟩
    · simp at hin
    · unfold sampleIteration at hsi
      have hinv := sampleStep_fold_evidence sim.bayesian_model fuel rng f rf b
        hrng hfuel hreg hev sim.bayesian_model.risk_structure ([], c) (st, c') hsi
      exact hinv.1 (List.mem_map_of_mem Prod.fst (alookup_mem hreg))

theorem oneFactorSim_run_eval :
    oneFactorSim.run_simulation 1 halfRng 1 =
      .ok [{ state := [("a", true)], total := 103 }] := by
  have hd : (decide ((1 : ℚ) / 2 < 1)) = true := decide_eq_true (by norm_num)
  have hr1 : List.range 1 = [0] := rfl
  have htc : total_cost_of oneFactorSim.cost_impacts oneFactorSim.base_cost
      [("a", true)] = 103 := by
    simp +decide [total_cost_of, oneFactorSim, alookup]
    norm_num
  simp +decide [MonteCarloSimulator.run_simulation, runStep, sampleIteration,
    sampleStep, oneFactorSim, oneFactorModel, calculate_probability_succ, calcStep,
    alookup, dictInsert, foldlExcept, halfRng, hd, hr1]
  constructor
  · norm_num
  · have hd2 : (decide ((2 : ℚ)⁻¹ < 1)) = true := decide_eq_true (by norm_num)
    rw [hd2]
    simpa [oneFactorSim] using htc

/-- Witness for C6 on a one-factor simulator: `run(1)` yields exactly one
sample whose total cost 103 is at least the baseline 100. -/
theorem claim_run_samples_witness :
    (([{ state := [("a", true)], total := 103 }] : List SimulationSample).length : Int)
      = 1 ∧ (100 : ℚ) ≤ 103 := by
  have h := claim_run_samples oneFactorSim 1 halfRng 1
    [{ state := [("a", true)], total := 103 }] (by norm_num) oneFactorSim_run_eval
  refine ⟨h.1, ?_⟩
  have h3 := h.2.2 (by
    intro kv hkv
    simp [oneFactorSim] at hkv
    rw [hkv]
    constructor <;> norm_num)
    { state := [("a", true)], total := 103 } (by simp)
  simpa [oneFactorSim] using h3

/-- Witness for C10 on a one-factor simulator with evidence `a ↦ true`:
the single sample of `run(1)` marks `a` as occurred. -/
theorem claim_evidence_deterministic_sampling_witness :
    alookup ([("a", true)] : List (String × Bool)) "a" = some true := by
  have h := claim_evidence_deterministic_sampling oneFactorSim 1 halfRng 1 "a"
    { name := "a", probability := 0.3, parents := [] } true
    [{ state := [("a", true)], total := 103 }]
    (fun t => ⟨by norm_num [halfRng], by norm_num [halfRng]⟩) (by norm_num)
    (by simp +decide [oneFactorSim, oneFactorModel, alookup])
    (by simp +decide [oneFactorSim, oneFactorModel, alookup])
    oneFactorSim_run_eval
  exact h { state := [("a", true)], total := 103 } (by simp)

theorem list_countP_mono (l : List ℚ) (p q : ℚ → Bool)
    (h : ∀ x ∈ l, p x = true → q x = true) : l.countP p ≤ l.countP q := by
  induction l with
  | nil => simp
  | cons a t ih =>
    have ht := ih (fun x hx hp => h x (List.mem_cons_of_mem _ hx) hp)
    by_cases hp : p a = true
    · rw [List.countP_cons_of_pos _ _ hp, List.countP_cons_of_pos _ _ (h a (by simp) hp)]
      omega
    · rw [List.countP_cons_of_neg _ _ hp]
      by_cases hq : q a = true
      · rw [List.countP_cons_of_pos _ _ hq]; omega
      · rw [List.countP_cons_of_neg _ _ hq]; omega

/-- C8: for every simulator with a nonnegative baseline (the constructed
baseline is 100) and every sample list, the fraction of samples exceeding
baseline times 1.2 is at most the fraction exceeding baseline times 1.1:
the stricter budget threshold is never crossed more frequently. -/
theorem claim_budget_thresholds_mono (sim : MonteCarloSimulator)
    (results : List SimulationSample) (hb : 0 ≤ sim.base_cost) :
    (sim.analyze_results results).prob_over_budget_20 ≤
      (sim.analyze_results results).prob_over_budget := by
  unfold MonteCarloSimulator.analyze_results
  simp only
  have hcount : (results.map (fun s => s.total)).countP
      (fun t => decide (sim.base_cost * 1.2 < t)) ≤
      (results.map (fun s => s.total)).countP
      (fun t => decide (sim.base_cost * 1.1 < t)) := by
    apply list_countP_mono
    intro x _ hx
    rw [decide_eq_true_eq] at hx ⊢
    have h12 : sim.base_cost * 1.1 ≤ sim.base_cost * 1.2 := by nlinarith
    linarith
  apply div_le_div_of_nonneg_right ?_ (Nat.cast_nonneg _)
  exact_mod_cast hcount

/-- Witness for C8 at the constructed baseline 100 and two concrete
samples. -/
theorem claim_budget_thresholds_mono_witness :
    ((MonteCarloSimulator.init sampleOntology (BayesianNetworkModel.init
      sampleOntology)).analyze_results
        [{ state := [], total := 105 }, { state := [], total := 130 }]).prob_over_budget_20 ≤
      ((MonteCarloSimulator.init sampleOntology (BayesianNetworkModel.init
        sampleOntology)).analyze_results
          [{ state := [], total := 105 }, { state := [], total := 130 }]).prob_over_budget :=
  claim_budget_thresholds_mono _ _ (by norm_num [MonteCarloSimulator.init])
